import Mathlib

/-!
# Verification of the speaker-reconciliation logic of `scripts/transcribe.py`

This file gives a shallow embedding of the speaker-assignment reconciliation
performed by `transcribe_audio` (lines 184-456 of `scripts/transcribe.py`),
together with a small model of the surrounding control flow of
`transcribe_audio` itself (format conversion, model loading, cleanup of the
temporary conversion file).

Modelling conventions:
* Python floats are modelled as rationals (`ℚ`); every quantity manipulated by
  the reconciler is obtained by `+`, `-`, `min`, `max`, `/` from the inputs, and
  the concrete inputs appearing in the specification are small integers on
  which float arithmetic is exact.
* Python dictionaries for transcript segments are modelled by the `Segment`
  structure; an `Option` field value `none` means "key absent".  The key
  `"speaker"` can be absent, present with value `None` (the absence marker),
  or present with a label: `speaker : Option (Option String)`.
* Exceptions that can escape the assignment phases (and are caught by the
  `except Exception as diarize_error` handler at line 438) are modelled by the
  `PyErr` type and an explicit `exn` field in the result.
* Fallible Python arithmetic (`/` and `%` with a zero right operand raise
  `ZeroDivisionError`) is modelled by `pydiv`.
-/

namespace Transcribe

/-- Python exceptions that can be raised inside the diarization/assignment
block of `transcribe_audio` and caught at line 438. -/
inductive PyErr where
  | nameError (v : String)
  | zeroDivisionError
  | keyError (k : String)
  deriving DecidableEq, Repr

/-- `str(e)` for the exceptions of `PyErr`:  `str(NameError("name 'v' is not
defined"))`, `str(ZeroDivisionError("division by zero"))`, `str(KeyError(k))`. -/
def pyErrMsg : PyErr → String
  | .nameError v => "name \x27" ++ v ++ "\x27 is not defined"
  | .zeroDivisionError => "division by zero"
  | .keyError k => "\x27" ++ k ++ "\x27"

/-- Python float division: raises `ZeroDivisionError` on a zero divisor. -/
def pydiv (a b : ℚ) : Except PyErr ℚ :=
  if b = 0 then .error .zeroDivisionError else .ok (a / b)

/-- A transcript segment dictionary as produced by WhisperX.  `none` in an
`Option`-valued field means the dictionary key is absent.  `speaker` models the
`"speaker"` key (`some none` = key present with Python `None`, the absence
marker); `method?` and `conf?` model the internal `"_assignment_method"` and
`"_assignment_confidence"` debug keys. -/
structure Segment where
  start : Option ℚ := none
  stop : Option ℚ := none
  text : String := ""
  speaker : Option (Option String) := none
  method? : Option String := none
  conf? : Option ℚ := none
  deriving DecidableEq, Repr

/-- A raw element yielded by `diarize_segments.itertracks(yield_label=True)`
after `item_list = list(item)` (lines 191-215 and 242-278).
`short` models `len(item_list) < 2`; otherwise `item_list[0]` is the turn
object, whose `start`/`end` attributes may be missing (`hasattr` checks),
and `item_list[-1]` is the speaker, already coerced by `str`. -/
inductive RawItem where
  | short
  | item (start : Option ℚ) (stop : Option ℚ) (speaker : String)
  deriving DecidableEq, Repr

/-- A validated diarization turn (lines 259-264): `start_time >= 0` and
`end_time > start_time` hold, `duration = end - start` is stored. -/
structure DiarTurn where
  start : ℚ
  stop : ℚ
  speaker : String
  duration : ℚ
  deriving DecidableEq, Repr

/-- Boolean membership in a list of strings (Python `in`). -/
def memStr (x : String) : List String → Bool
  | [] => false
  | y :: ys => if x = y then true else memStr x ys

/-- Deduplication of a list of strings, modelling a Python `set` of `str`:
only membership, cardinality and the sorted image of the result are ever
consumed, all of which are independent of element order. -/
def dedupStr : List String → List String
  | [] => []
  | x :: xs =>
    let r := dedupStr xs
    if memStr x r then r else x :: r

/-- First extraction pass (lines 184-226): `detected_speakers` collects
`str(speaker)` for every item of length ≥ 2 whose turn object has both a
`start` and an `end` attribute — the *values* of start/end are NOT validated
here. -/
def detectedSpeakers (raw : List RawItem) : List String :=
  dedupStr (raw.filterMap fun x =>
    match x with
    | .item (some _) (some _) sp => some sp
    | _ => none)

/-- Second extraction pass (lines 242-278): `diarization_turns` keeps only
items with both timing attributes present and `start_time >= 0` and
`end_time > start_time`. -/
def validTurns (raw : List RawItem) : List DiarTurn :=
  raw.filterMap fun x =>
    match x with
    | .item (some s) (some e) sp =>
        if 0 ≤ s ∧ s < e then some ⟨s, e, sp, e - s⟩ else none
    | _ => none

/-- `segment.get("start", 0)` (line 321). -/
def segStart (s : Segment) : ℚ := s.start.getD 0

/-- `segment.get("end", segment_start + 1)` (line 322). -/
def segEnd (s : Segment) : ℚ := s.stop.getD (segStart s + 1)

/-- `segment_duration = segment_end - segment_start` (line 323). -/
def segDur (s : Segment) : ℚ := segEnd s - segStart s

/-- `overlap_duration = max(0, min(segment_end, turn.end) - max(segment_start,
turn.start))` (lines 337-339). -/
def overlapDur (s : Segment) (t : DiarTurn) : ℚ :=
  max 0 (min (segEnd s) t.stop - max (segStart s) t.start)

/-- The strategy-1 loop over `diarization_turns` (lines 335-346), carrying the
locals `best_overlap` / `best_speaker`: a turn replaces the running best only
on a strictly larger overlap, so the first turn attaining the maximum wins. -/
def s1go (s : Segment) : List DiarTurn → ℚ → Option String → ℚ × Option String
  | [], bo, bs => (bo, bs)
  | t :: ts, bo, bs =>
    if overlapDur s t > bo then s1go s ts (overlapDur s t) (some t.speaker)
    else s1go s ts bo bs

/-- Final value of `best_overlap` (initialised to `0` at line 331). -/
def bestOverlap (s : Segment) (ts : List DiarTurn) : ℚ := (s1go s ts 0 none).1

/-- Final value of `best_speaker` (initialised to `None` at line 332). -/
def bestSpeaker (s : Segment) (ts : List DiarTurn) : Option String := (s1go s ts 0 none).2

/-- Distance of a segment to a turn (lines 366-372): `turn.start - segment_end`
if the turn is entirely after the segment, `segment_start - turn.end` if
entirely before, else `0`. -/
def gapDist (s : Segment) (t : DiarTurn) : ℚ :=
  if segEnd s ≤ t.start then t.start - segEnd s
  else if segStart s ≥ t.stop then segStart s - t.stop
  else 0

/-- The strategy-2 loop over `diarization_turns` (lines 365-376), carrying the
locals `min_distance` (initialised to `float('inf')`, modelled by `none`) and
`closest_speaker`: a turn replaces the running minimum only on a strictly
smaller distance, and every finite distance beats `float('inf')`. -/
def s2go (s : Segment) : List DiarTurn → Option ℚ → Option String → Option ℚ × Option String
  | [], md, cs => (md, cs)
  | t :: ts, md, cs =>
    match md with
    | none => s2go s ts (some (gapDist s t)) (some t.speaker)
    | some m =>
        if gapDist s t < m then s2go s ts (some (gapDist s t)) (some t.speaker)
        else s2go s ts (some m) cs

/-- Lexicographic comparison of strings as lists of code points: the order of
Python's `<` on `str`, used by `sorted`. -/
def strLtB : List Char → List Char → Bool
  | _, [] => false
  | [], _ :: _ => true
  | a :: as, b :: bs =>
    if a.toNat < b.toNat then true
    else if b.toNat < a.toNat then false
    else strLtB as bs

/-- Python's `<` on `str` (lexicographic by code point). -/
def pyStrLt (a b : String) : Bool := strLtB a.toList b.toList

/-- Insert a string into a sorted list (ascending, as Python `sorted`). -/
def insertSorted (x : String) : List String → List String
  | [] => [x]
  | y :: ys => if pyStrLt x y then x :: y :: ys else y :: insertSorted x ys

/-- `sorted(detected_speakers)` (line 316): insertion sort, ascending. -/
def sortStrings : List String → List String
  | [] => []
  | x :: xs => insertSorted x (sortStrings xs)

/-- Strategy 3, the time-based fallback (lines 387-403).  With exactly two
known speakers the timeline is bisected at `total_duration / 2`; otherwise
`speaker_list[i % len(speaker_list)]` is used — Python's `%` raises
`ZeroDivisionError` on an empty list.  Both branches always assign, so the
"final safety net" at lines 405-409 (`assigned_speaker is None`) can never
fire after this strategy and is absorbed into the two branches. -/
def stage3 (spl : List String) (totalDur : ℚ) (i : Nat) (seg : Segment) :
    Except PyErr (String × String × ℚ) :=
  if spl.length = 2 then
    .ok (if segStart seg < totalDur / 2 then spl.getD 0 "" else spl.getD 1 "",
         "time_fallback", 1/2)
  else
    match spl with
    | [] => .error .zeroDivisionError
    | _ :: _ => .ok (spl.getD (i % spl.length) "", "time_fallback", 1/2)

/-- Strategy 1, maximum-overlap assignment (lines 329-358): when
`best_overlap > 0` the confidence `best_overlap / segment_duration` is
computed (line 351, a genuine Python division that raises on a zero
`segment_duration`) and `assigned_speaker = best_speaker`,
`assignment_method = "overlap"` are set; else the locals keep their initial
`None` / `"unassigned"` / `0.0`. -/
def strat1 (turns : List DiarTurn) (seg : Segment) :
    Except PyErr (Option String × String × ℚ) :=
  if bestOverlap seg turns > 0 then
    match pydiv (bestOverlap seg turns) (segDur seg) with
    | .error e => .error e
    | .ok conf => .ok (bestSpeaker seg turns, "overlap", conf)
  else .ok (none, "unassigned", 0)

/-- Strategies 2 and 3 chained (lines 360-403), reached when strategy 1 left
`assigned_speaker` as `None` (with a non-empty turn list): the closest-turn
loop always sets `closest_speaker` to some turn's speaker, the truthiness test
`if closest_speaker:` (line 378) fails for the empty string and falls through
to the time-based fallback; on success the confidence is
`1.0 / (1.0 + min_distance)` (line 381). -/
def strat2 (turns : List DiarTurn) (spl : List String) (totalDur : ℚ)
    (i : Nat) (seg : Segment) : Except PyErr (String × String × ℚ) :=
  match (s2go seg turns none none).2 with
  | some sp2 =>
      if sp2 = "" then stage3 spl totalDur i seg
      else
        match pydiv 1 (1 + ((s2go seg turns none none).1.getD 0)) with
        | .error e => .error e
        | .ok conf => .ok (sp2, "closest", conf)
  | none => stage3 spl totalDur i seg

/-- One iteration of the per-segment assignment loop (lines 320-409), up to and
including the final safety net, returning the triple
`(assigned_speaker, assignment_method, assignment_confidence)` or the Python
exception that escapes.

When `diarization_turns` is empty, the guard at line 330 skips the
initialisation of the local `best_overlap` and the loop at line 335 runs zero
iterations, so the read of `best_overlap` at line 348 raises
`NameError: name 'best_overlap' is not defined` — `diarization_turns` does not
change between iterations, so the local is never defined by an earlier
iteration either.

Strategy 2 runs only when `assigned_speaker is None` after strategy 1; with a
non-empty turn list its first iteration always lowers `min_distance` below
`float('inf')`, hence `min_distance` and `closest_speaker` are set, and the
truthiness test `if closest_speaker:` at line 378 fails exactly for `None` and
for the empty string. -/
def computeAssignment (turns : List DiarTurn) (spl : List String) (totalDur : ℚ)
    (i : Nat) (seg : Segment) : Except PyErr (String × String × ℚ) :=
  match turns with
  | [] => .error (.nameError "best_overlap")
  | _ :: _ =>
    match strat1 turns seg with
    | .error e => .error e
    | .ok (some sp, m, c) => .ok (sp, m, c)
    | .ok (none, _, _) => strat2 turns spl totalDur i seg

/-- `assignment_debug[assigned_speaker] += 1` (line 415): the dictionary is
created at line 315 with exactly the detected speakers as keys, and its key set
never changes, so the increment raises `KeyError` iff the assigned speaker is
not a detected one. -/
def bumpCheck (detected : List String) (sp : String) : Except PyErr Unit :=
  if memStr sp detected then .ok () else .error (.keyError sp)

/-- The per-segment assignment loop (lines 320-415).  Segments are mutated in
place one at a time (`speaker`, `_assignment_method`, `_assignment_confidence`
set at lines 412-414), so when an exception escapes at segment `k`, segments
`0..k-1` keep their mutations and segments `k..` are untouched (for the errors
raised before line 412) — the `KeyError` of line 415 leaves segment `k`
mutated as well. -/
def assignLoop (turns : List DiarTurn) (spl : List String) (detected : List String)
    (totalDur : ℚ) : Nat → List Segment → List Segment × Option PyErr
  | _, [] => ([], none)
  | i, s :: rest =>
    match computeAssignment turns spl totalDur i s with
    | .error e => (s :: rest, some e)
    | .ok (sp, m, c) =>
      let s' : Segment := { s with speaker := some (some sp), method? := some m, conf? := some c }
      match bumpCheck detected sp with
      | .error e => (s' :: rest, some e)
      | .ok _ =>
        let (rest', err) := assignLoop turns spl detected totalDur (i + 1) rest
        (s' :: rest', err)

/-- The diarization outcome dictionary `diarization_metadata`, restricted to
the fields written by the reconciliation phases (lines 296-444). -/
structure DiarMeta where
  attempted : Bool := true
  success : Bool := false
  error : Option String := none
  speaker_count : Nat := 0
  deriving DecidableEq, Repr

/-- Result of the reconciliation phases: the (possibly partially) mutated
segment list, the outcome metadata, and the exception caught by the handler at
line 438 (if any). -/
structure ReconcileOut where
  segments : List Segment
  meta : DiarMeta
  exn : Option PyErr
  deriving DecidableEq, Repr

/-- Debug-field cleanup (lines 427-432): `del segment["_assignment_method"]`
and `del segment["_assignment_confidence"]` guarded by key-presence tests, so
the net effect is that both keys are absent afterwards. -/
def cleanupDebug (s : Segment) : Segment := { s with method? := none, conf? := none }

/-- `total_duration` (line 391) reads `result["segments"][-1].get("end", 0)` on
the in-place-mutated list, whose `"end"` values are never written, so it
equals the same read on the input list; it is lifted out of the loop here as
`totalDurOf`. -/
def totalDurOf (segs : List Segment) : ℚ :=
  match segs.getLast? with
  | some s => s.stop.getD 0
  | none => 0

/-- Phase 2 (lines 296-310) followed by the crash of phase 4: every segment
gets `speaker = None` and `success = False`, `speaker_count = 0` are set, the
explanatory `"No speakers detected in diarization output"` is written at lines
307-308 — and then the f-string at line 419 reads `successful_assignments`,
assigned only inside the non-empty branch (line 317), so `NameError` is raised
and the handler at line 444 overwrites the explanatory error with `str(e)`. -/
def noSpeakerOut (segs : List Segment) : ReconcileOut :=
  { segments := segs.map fun s => { s with speaker := some none },
    meta := { attempted := true, success := false, speaker_count := 0,
              error := some (pyErrMsg (.nameError "successful_assignments")) },
    exn := some (.nameError "successful_assignments") }

/-- Phase 4 (lines 417-436) together with the handler at lines 438-444, for
the branch where detected speakers exist.

* If the assignment loop raised, the handler records `str(e)`;
  `success`/`speaker_count` keep their initial `False`/`0`.
* Otherwise the report at line 423 computes `count / len(result["segments"])`
  for every entry of `assignment_debug` (keyed by the non-empty
  `detected_speakers`), raising `ZeroDivisionError` for an empty segment list;
  only when the division is defined are the debug keys removed (lines 427-432)
  and `success = True`, `speaker_count = len(detected_speakers)` recorded
  (lines 434-436). -/
def phase4 (detected : List String) (segsLen : Nat)
    (loopRes : List Segment × Option PyErr) : ReconcileOut :=
  match loopRes with
  | (segs', some e) =>
    { segments := segs',
      meta := { attempted := true, success := false, speaker_count := 0,
                error := some (pyErrMsg e) },
      exn := some e }
  | (segs', none) =>
    if segsLen = 0 then
      { segments := segs',
        meta := { attempted := true, success := false, speaker_count := 0,
                  error := some (pyErrMsg .zeroDivisionError) },
        exn := some .zeroDivisionError }
    else
      { segments := segs'.map cleanupDebug,
        meta := { attempted := true, success := true, speaker_count := detected.length,
                  error := none },
        exn := none }

/-- The speaker-reconciliation step: phases 1-4 of the assignment algorithm
(lines 184-436) plus the exception handler at lines 438-444, assembled from
`detectedSpeakers`, `validTurns`, `noSpeakerOut`, `assignLoop` and `phase4`. -/
def reconcile (segs : List Segment) (raw : List RawItem) : ReconcileOut :=
  if detectedSpeakers raw = [] then noSpeakerOut segs
  else
    phase4 (detectedSpeakers raw) segs.length
      (assignLoop (validTurns raw) (sortStrings (detectedSpeakers raw))
        (detectedSpeakers raw) (totalDurOf segs) 0 segs)

/-! ## Control-flow model of `transcribe_audio` (lines 87-456)

The external collaborators (WhisperX model loading and transcription, the
pyannote pipeline, ffmpeg conversion) are modelled by an environment recording
whether each call raises and what data it yields.  The alignment step
(lines 147-156) catches its own exceptions and only refines timestamps, so the
environment's `segments` are the post-alignment segments. -/

/-- Outcomes of the external collaborators for one `transcribe_audio` call. -/
structure TEnv where
  /-- `Path(audio_file).suffix.lower()`: the file extension of the input audio
  file, already lowercased as on line 19. -/
  suffixLower : String
  enableDiar : Bool
  /-- whether `HUGGINGFACE_TOKEN` is set. -/
  hfToken : Bool
  /-- whether ffmpeg conversion (lines 35-61) returns 0 and a non-empty file;
  on failure or timeout `convert_audio_for_diarization` falls back to the
  original file with no cleanup path. -/
  convertSucceeds : Bool
  /-- whether `whisperx.load_model` (line 125) raises. -/
  loadModelRaises : Bool
  /-- whether `whisperx.load_audio` (line 141) raises. -/
  loadAudioRaises : Bool
  /-- whether `model.transcribe` (line 144) raises. -/
  transcribeRaises : Bool
  /-- whether `Pipeline.from_pretrained` / `diarize_model(...)`
  (lines 170-181) raises. -/
  diarizeRaises : Bool
  rawTurns : List RawItem
  segments : List Segment
  deriving Repr

/-- The extension set of `needs_conversion_for_diarization` (line 21). -/
def problematicFormats : List String := [".m4a", ".mp4", ".webm", ".mpeg", ".mpga"]

/-- `needs_conversion_for_diarization` (lines 17-22), applied to the already
lowercased extension. -/
def needsConversionForDiarization (suffixLower : String) : Bool :=
  problematicFormats.contains suffixLower

/-- Whether the call produced a temporary converted wav file
(`temp_file_to_cleanup` set at line 122): conversion is attempted only when
diarization is enabled and the format is problematic (line 107), and a cleanup
path is returned only on success (line 61). -/
def tempCreated (env : TEnv) : Bool :=
  env.enableDiar && needsConversionForDiarization env.suffixLower && env.convertSucceeds

/-- The value returned by `transcribe_audio` on its normal exit path. -/
structure TOut where
  segments : List Segment
  meta : DiarMeta
  deriving Repr

/-- Control flow of `transcribe_audio`: the `Except` carries the Python
exception when one propagates out of the function, and the `Bool` records
whether `cleanup_temp_file` removed the temporary conversion file.  The
cleanup call (lines 452-454) sits on the straight-line path before `return`,
NOT in a `finally` block: exceptions from `whisperx.load_model`,
`whisperx.load_audio` or `model.transcribe` propagate to the caller without
reaching it.  The diarization block (lines 161-447) catches every exception it
raises internally, so it never skips the cleanup. -/
def transcribeAudioRun (env : TEnv) : Except String TOut × Bool :=
  if env.loadModelRaises then (.error "whisperx.load_model raised", false)
  else if env.loadAudioRaises then (.error "whisperx.load_audio raised", false)
  else if env.transcribeRaises then (.error "model.transcribe raised", false)
  else if env.enableDiar && env.hfToken then
    if env.diarizeRaises then
      (.ok ⟨env.segments, { attempted := true, success := false, speaker_count := 0,
                            error := some "diarization pipeline raised" }⟩,
       tempCreated env)
    else
      let r := reconcile env.segments env.rawTurns
      (.ok ⟨r.segments, r.meta⟩, tempCreated env)
  else if env.enableDiar then
    (.ok ⟨env.segments, { attempted := false, success := false, speaker_count := 0,
                          error := some "HUGGINGFACE_TOKEN not available" }⟩,
     tempCreated env)
  else
    (.ok ⟨env.segments, { attempted := false, success := false, speaker_count := 0,
                          error := none }⟩,
     tempCreated env)

/-- Whether a `transcribeAudioRun` result is a normal return. -/
def runOk (r : Except String TOut × Bool) : Bool :=
  match r.1 with
  | .ok _ => true
  | .error _ => false

/-! ## Unfolding equations -/

theorem computeAssignment_nil (spl : List String) (totalDur : ℚ) (i : Nat) (seg : Segment) :
    computeAssignment [] spl totalDur i seg = .error (.nameError "best_overlap") := rfl

theorem computeAssignment_cons (t : DiarTurn) (ts : List DiarTurn) (spl : List String)
    (totalDur : ℚ) (i : Nat) (seg : Segment) :
    computeAssignment (t :: ts) spl totalDur i seg =
      match strat1 (t :: ts) seg with
      | .error e => .error e
      | .ok (some sp, m, c) => .ok (sp, m, c)
      | .ok (none, _, _) => strat2 (t :: ts) spl totalDur i seg := rfl

theorem assignLoop_nil (turns : List DiarTurn) (spl detected : List String)
    (totalDur : ℚ) (i : Nat) :
    assignLoop turns spl detected totalDur i [] = ([], none) := rfl

theorem assignLoop_cons (turns : List DiarTurn) (spl detected : List String)
    (totalDur : ℚ) (i : Nat) (s : Segment) (rest : List Segment) :
    assignLoop turns spl detected totalDur i (s :: rest) =
      match computeAssignment turns spl totalDur i s with
      | .error e => (s :: rest, some e)
      | .ok (sp, m, c) =>
        let s' : Segment :=
          { s with speaker := some (some sp), method? := some m, conf? := some c }
        match bumpCheck detected sp with
        | .error e => (s' :: rest, some e)
        | .ok _ =>
          let (rest', err) := assignLoop turns spl detected totalDur (i + 1) rest
          (s' :: rest', err) := rfl

/-! ## Strategy 1: the maximum-overlap fold -/

theorem s1go_fst (s : Segment) (ts : List DiarTurn) :
    ∀ (bo : ℚ) (bs : Option String),
      (s1go s ts bo bs).1 = ts.foldl (fun b t => max b (overlapDur s t)) bo := by
  induction ts with
  | nil => intro bo bs; rfl
  | cons t ts ih =>
    intro bo bs
    simp only [s1go, List.foldl_cons]
    split_ifs with h
    · rw [ih]
      congr 1
      exact (max_eq_right h.le).symm
    · rw [ih]
      congr 1
      exact (max_eq_left (not_lt.mp h)).symm

theorem le_foldlMax (s : Segment) (ts : List DiarTurn) :
    ∀ b : ℚ, b ≤ ts.foldl (fun acc t => max acc (overlapDur s t)) b := by
  induction ts with
  | nil => intro b; exact le_rfl
  | cons t ts ih =>
    intro b
    simp only [List.foldl_cons]
    exact le_trans (le_max_left _ _) (ih _)

theorem foldlMax_le (s : Segment) (ts : List DiarTurn) (B : ℚ) :
    ∀ b : ℚ, b ≤ B → (∀ t ∈ ts, overlapDur s t ≤ B) →
      ts.foldl (fun acc t => max acc (overlapDur s t)) b ≤ B := by
  induction ts with
  | nil => intro b hb _; exact hb
  | cons t ts ih =>
    intro b hb h
    simp only [List.foldl_cons]
    exact ih _ (max_le hb (h t (List.mem_cons_self t ts)))
      (fun u hu => h u (List.mem_cons_of_mem t hu))

theorem mem_le_foldlMax (s : Segment) {ts : List DiarTurn} {t : DiarTurn} (ht : t ∈ ts) :
    ∀ b : ℚ, overlapDur s t ≤ ts.foldl (fun acc u => max acc (overlapDur s u)) b := by
  induction ts with
  | nil => exact absurd ht (List.not_mem_nil t)
  | cons u ts ih =>
    intro b
    simp only [List.foldl_cons]
    rcases List.mem_cons.mp ht with rfl | ht'
    · exact le_trans (le_max_right _ _) (le_foldlMax s ts _)
    · exact ih ht' _

theorem bestOverlap_nonneg (s : Segment) (ts : List DiarTurn) : 0 ≤ bestOverlap s ts := by
  rw [bestOverlap, s1go_fst]
  exact le_foldlMax s ts 0

theorem overlapDur_le_max_segDur (s : Segment) (t : DiarTurn) :
    overlapDur s t ≤ max 0 (segDur s) := by
  unfold overlapDur segDur
  refine max_le (le_max_left _ _) (le_trans ?_ (le_max_right _ _))
  exact sub_le_sub (min_le_left _ _) (le_max_left _ _)

theorem bestOverlap_le_max_segDur (s : Segment) (ts : List DiarTurn) :
    bestOverlap s ts ≤ max 0 (segDur s) := by
  rw [bestOverlap, s1go_fst]
  exact foldlMax_le s ts _ 0 (le_max_left _ _) (fun t _ => overlapDur_le_max_segDur s t)

theorem segDur_pos_of_bestOverlap_pos {s : Segment} {ts : List DiarTurn}
    (h : 0 < bestOverlap s ts) : 0 < segDur s := by
  by_contra hle
  push_neg at hle
  have h1 : bestOverlap s ts ≤ max 0 (segDur s) := bestOverlap_le_max_segDur s ts
  rw [max_eq_left hle] at h1
  exact absurd (lt_of_lt_of_le h h1) (lt_irrefl 0)

theorem s1go_snd_cases (s : Segment) (ts : List DiarTurn) :
    ∀ (bo : ℚ) (bs : Option String),
      (s1go s ts bo bs).2 = bs ∨ ∃ t ∈ ts, (s1go s ts bo bs).2 = some t.speaker := by
  induction ts with
  | nil => intro bo bs; exact .inl rfl
  | cons t ts ih =>
    intro bo bs
    simp only [s1go]
    split_ifs with h
    · rcases ih (overlapDur s t) (some t.speaker) with h1 | ⟨u, hu, h2⟩
      · exact .inr ⟨t, List.mem_cons_self t ts, h1⟩
      · exact .inr ⟨u, List.mem_cons_of_mem t hu, h2⟩
    · rcases ih bo bs with h1 | ⟨u, hu, h2⟩
      · exact .inl h1
      · exact .inr ⟨u, List.mem_cons_of_mem t hu, h2⟩

theorem s1go_pos_mem (s : Segment) (ts : List DiarTurn) :
    ∀ (bo : ℚ) (bs : Option String), bo < (s1go s ts bo bs).1 →
      ∃ t ∈ ts, (s1go s ts bo bs).2 = some t.speaker := by
  induction ts with
  | nil => intro bo bs h; exact absurd h (lt_irrefl bo)
  | cons t ts ih =>
    intro bo bs h
    simp only [s1go] at h ⊢
    split_ifs at h ⊢ with hod
    · rcases s1go_snd_cases s ts (overlapDur s t) (some t.speaker) with h1 | ⟨u, hu, h2⟩
      · exact ⟨t, List.mem_cons_self t ts, h1⟩
      · exact ⟨u, List.mem_cons_of_mem t hu, h2⟩
    · rcases ih bo bs h with ⟨u, hu, h2⟩
      exact ⟨u, List.mem_cons_of_mem t hu, h2⟩

theorem s1go_const (s : Segment) (ts : List DiarTurn) :
    ∀ (bo : ℚ) (bs : Option String), (∀ t ∈ ts, overlapDur s t ≤ bo) →
      s1go s ts bo bs = (bo, bs) := by
  induction ts with
  | nil => intro bo bs _; rfl
  | cons t ts ih =>
    intro bo bs h
    simp only [s1go]
    rw [if_neg (not_lt.mpr (h t (List.mem_cons_self t ts)))]
    exact ih bo bs (fun u hu => h u (List.mem_cons_of_mem t hu))

theorem s1go_find (s : Segment) (ts : List DiarTurn) :
    ∀ (bo : ℚ) (bs : Option String), bo < (s1go s ts bo bs).1 →
      ∃ t, ts.find? (fun u => decide (overlapDur s u = (s1go s ts bo bs).1)) = some t ∧
        (s1go s ts bo bs).2 = some t.speaker := by
  induction ts with
  | nil => intro bo bs h; exact absurd h (lt_irrefl bo)
  | cons t ts ih =>
    intro bo bs h
    by_cases hod : overlapDur s t > bo
    · have hred : s1go s (t :: ts) bo bs = s1go s ts (overlapDur s t) (some t.speaker) := by
        simp only [s1go, if_pos hod]
      rw [hred] at h ⊢
      by_cases h2 : overlapDur s t < (s1go s ts (overlapDur s t) (some t.speaker)).1
      · obtain ⟨u, hf, hs⟩ := ih (overlapDur s t) (some t.speaker) h2
        refine ⟨u, ?_, hs⟩
        rw [List.find?_cons_of_neg _ (by simp [h2.ne])]
        exact hf
      · have hzge : overlapDur s t ≤ (s1go s ts (overlapDur s t) (some t.speaker)).1 := by
          rw [s1go_fst]
          exact le_foldlMax s ts _
        have heq : (s1go s ts (overlapDur s t) (some t.speaker)).1 = overlapDur s t :=
          le_antisymm (not_lt.mp h2) hzge
        have hle : ∀ u ∈ ts, overlapDur s u ≤ overlapDur s t := by
          intro u hu
          have h3 : overlapDur s u ≤ (s1go s ts (overlapDur s t) (some t.speaker)).1 := by
            rw [s1go_fst]
            exact mem_le_foldlMax s hu _
          exact heq ▸ h3
        have hconst : s1go s ts (overlapDur s t) (some t.speaker) =
            (overlapDur s t, some t.speaker) := s1go_const s ts _ _ hle
        refine ⟨t, ?_, by rw [hconst]⟩
        rw [List.find?_cons_of_pos _ (by simp [hconst])]
    · have hred : s1go s (t :: ts) bo bs = s1go s ts bo bs := by
        simp only [s1go, if_neg hod]
      rw [hred] at h ⊢
      obtain ⟨u, hf, hs⟩ := ih bo bs h
      refine ⟨u, ?_, hs⟩
      have hne : overlapDur s t ≠ (s1go s ts bo bs).1 :=
        ne_of_lt (lt_of_le_of_lt (not_lt.mp hod) h)
      rw [List.find?_cons_of_neg _ (by simp [hne])]
      exact hf

/-! ## Strategy 2: the minimum-gap fold -/

theorem gapDist_nonneg (s : Segment) (t : DiarTurn) : 0 ≤ gapDist s t := by
  unfold gapDist
  split_ifs with h1 h2
  · linarith
  · linarith
  · exact le_rfl

theorem s2go_some_spec (s : Segment) (ts : List DiarTurn) :
    ∀ (m : ℚ) (sp : String),
      ∃ m' sp', s2go s ts (some m) (some sp) = (some m', some sp') ∧ m' ≤ m ∧
        ((m' = m ∧ sp' = sp) ∨ ∃ t ∈ ts, gapDist s t = m' ∧ sp' = t.speaker) ∧
        ∀ t ∈ ts, m' ≤ gapDist s t := by
  induction ts with
  | nil =>
    intro m sp
    exact ⟨m, sp, rfl, le_rfl, .inl ⟨rfl, rfl⟩, by simp⟩
  | cons t ts ih =>
    intro m sp
    simp only [s2go]
    split_ifs with h
    · obtain ⟨m', sp', heq, hle, hca, hall⟩ := ih (gapDist s t) t.speaker
      refine ⟨m', sp', heq, hle.trans h.le, ?_, ?_⟩
      · rcases hca with ⟨h1, h2⟩ | ⟨u, hu, h3, h4⟩
        · exact .inr ⟨t, List.mem_cons_self t ts, h1.symm, h2⟩
        · exact .inr ⟨u, List.mem_cons_of_mem t hu, h3, h4⟩
      · intro u hu
        rcases List.mem_cons.mp hu with rfl | hu'
        · exact hle
        · exact hall u hu'
    · obtain ⟨m', sp', heq, hle, hca, hall⟩ := ih m sp
      refine ⟨m', sp', heq, hle, ?_, ?_⟩
      · rcases hca with ⟨h1, h2⟩ | ⟨u, hu, h3, h4⟩
        · exact .inl ⟨h1, h2⟩
        · exact .inr ⟨u, List.mem_cons_of_mem t hu, h3, h4⟩
      · intro u hu
        rcases List.mem_cons.mp hu with rfl | hu'
        · exact hle.trans (not_lt.mp h)
        · exact hall u hu'

theorem s2go_cons_entry (s : Segment) (t : DiarTurn) (ts : List DiarTurn) :
    s2go s (t :: ts) none none = s2go s ts (some (gapDist s t)) (some t.speaker) := rfl

theorem s2_result (s : Segment) (t : DiarTurn) (ts : List DiarTurn) :
    ∃ m' sp', s2go s (t :: ts) none none = (some m', some sp') ∧ 0 ≤ m' ∧
      (∃ u ∈ t :: ts, gapDist s u = m' ∧ sp' = u.speaker) ∧
      ∀ u ∈ t :: ts, m' ≤ gapDist s u := by
  rw [s2go_cons_entry]
  obtain ⟨m', sp', heq, hle, hca, hall⟩ := s2go_some_spec s ts (gapDist s t) t.speaker
  have hatt : ∃ u ∈ t :: ts, gapDist s u = m' ∧ sp' = u.speaker := by
    rcases hca with ⟨h1, h2⟩ | ⟨u, hu, h3, h4⟩
    · exact ⟨t, List.mem_cons_self t ts, h1.symm, h2⟩
    · exact ⟨u, List.mem_cons_of_mem t hu, h3, h4⟩
  obtain ⟨u, hu0, h3, hsp0⟩ := hatt
  refine ⟨m', sp', heq, h3 ▸ gapDist_nonneg s u, ⟨u, hu0, h3, hsp0⟩, ?_⟩
  intro v hv
  rcases List.mem_cons.mp hv with rfl | hv'
  · exact hle
  · exact hall v hv'

/-! ## Sorting, deduplication and membership -/

theorem mem_insertSorted {x y : String} {l : List String} :
    x ∈ insertSorted y l ↔ x = y ∨ x ∈ l := by
  induction l with
  | nil => simp [insertSorted]
  | cons z zs ih =>
    simp only [insertSorted]
    split_ifs with h
    · simp [List.mem_cons]
    · simp only [List.mem_cons, ih]
      tauto

theorem insertSorted_ne_nil (y : String) (l : List String) : insertSorted y l ≠ [] := by
  cases l with
  | nil => simp [insertSorted]
  | cons z zs =>
    simp only [insertSorted]
    split_ifs <;> simp

theorem mem_sortStrings {x : String} {l : List String} : x ∈ sortStrings l ↔ x ∈ l := by
  induction l with
  | nil => simp [sortStrings]
  | cons y ys ih =>
    simp only [sortStrings, mem_insertSorted, ih, List.mem_cons]

theorem sortStrings_ne_nil {l : List String} (h : l ≠ []) : sortStrings l ≠ [] := by
  cases l with
  | nil => exact absurd rfl h
  | cons y ys => exact insertSorted_ne_nil y (sortStrings ys)

theorem memStr_eq_true_iff {x : String} {l : List String} : memStr x l = true ↔ x ∈ l := by
  induction l with
  | nil => simp [memStr]
  | cons y ys ih =>
    simp only [memStr]
    split_ifs with h
    · simp [h]
    · simp [List.mem_cons, h, ih]

theorem mem_dedupStr {l : List String} : ∀ {x : String}, x ∈ dedupStr l ↔ x ∈ l := by
  induction l with
  | nil => intro x; simp [dedupStr]
  | cons y ys ih =>
    intro x
    simp only [dedupStr]
    split_ifs with h
    · have hy : y ∈ ys := ih.mp (memStr_eq_true_iff.mp h)
      simp only [ih, List.mem_cons]
      constructor
      · exact fun hx => .inr hx
      · rintro (rfl | hx)
        · exact hy
        · exact hx
    · simp [List.mem_cons, ih]

theorem getD_mem_str {l : List String} : ∀ {n : Nat}, n < l.length → l.getD n "" ∈ l := by
  induction l with
  | nil => intro n h; simp at h
  | cons y ys ih =>
    intro n h
    cases n with
    | zero => simp [List.getD]
    | succ k =>
      simp only [List.getD_cons_succ]
      exact List.mem_cons_of_mem y (ih (by simpa using h))

theorem validTurns_speaker_mem {raw : List RawItem} {t : DiarTurn}
    (h : t ∈ validTurns raw) : t.speaker ∈ detectedSpeakers raw := by
  unfold validTurns at h
  rw [List.mem_filterMap] at h
  obtain ⟨x, hx, hfx⟩ := h
  unfold detectedSpeakers
  rw [mem_dedupStr, List.mem_filterMap]
  refine ⟨x, hx, ?_⟩
  cases x with
  | short => simp at hfx
  | item os oe sp =>
    cases os with
    | none => simp at hfx
    | some s' =>
      cases oe with
      | none => simp at hfx
      | some e' =>
        simp only at hfx ⊢
        split_ifs at hfx with hc
        obtain rfl := Option.some.inj hfx
        rfl

/-! ## Totality of the assignment pipeline when valid turns exist -/

theorem strat1_of_zero {turns : List DiarTurn} {seg : Segment}
    (h : bestOverlap seg turns = 0) :
    strat1 turns seg = .ok (none, "unassigned", 0) := by
  rw [strat1, h]
  norm_num

theorem strat1_of_pos {turns : List DiarTurn} {seg : Segment}
    (h : 0 < bestOverlap seg turns) :
    ∃ sp, (∃ t ∈ turns, sp = t.speaker) ∧
      strat1 turns seg = .ok (some sp, "overlap", bestOverlap seg turns / segDur seg) := by
  have hdur : 0 < segDur seg := segDur_pos_of_bestOverlap_pos h
  obtain ⟨t, ht, hbs⟩ := s1go_pos_mem seg turns 0 none h
  have hbs' : bestSpeaker seg turns = some t.speaker := hbs
  refine ⟨t.speaker, ⟨t, ht, rfl⟩, ?_⟩
  rw [strat1, if_pos h, pydiv, if_neg (ne_of_gt hdur), hbs']

theorem stage3_ok (detected : List String) (totalDur : ℚ) (i : Nat) (seg : Segment)
    (hdet : detected ≠ []) :
    ∃ sp c, stage3 (sortStrings detected) totalDur i seg = .ok (sp, "time_fallback", c) ∧
      sp ∈ detected := by
  have hne : sortStrings detected ≠ [] := sortStrings_ne_nil hdet
  have hpos : 0 < (sortStrings detected).length := List.length_pos.mpr hne
  rw [stage3.eq_def]
  by_cases h2 : (sortStrings detected).length = 2
  · rw [if_pos h2]
    by_cases hc : segStart seg < totalDur / 2
    · rw [if_pos hc]
      exact ⟨_, _, rfl, mem_sortStrings.mp (getD_mem_str (by rw [h2]; norm_num))⟩
    · rw [if_neg hc]
      exact ⟨_, _, rfl, mem_sortStrings.mp (getD_mem_str (by rw [h2]; norm_num))⟩
  · rw [if_neg h2]
    obtain ⟨x, xs, hx⟩ := List.exists_cons_of_ne_nil hne
    rw [hx]
    refine ⟨_, _, rfl, ?_⟩
    rw [← hx]
    exact mem_sortStrings.mp (getD_mem_str (Nat.mod_lt i (hx ▸ hpos)))

theorem strat2_ok (t : DiarTurn) (ts : List DiarTurn) (detected : List String)
    (totalDur : ℚ) (i : Nat) (seg : Segment) (hdet : detected ≠ [])
    (hmem : ∀ u ∈ t :: ts, u.speaker ∈ detected) :
    ∃ sp m c, strat2 (t :: ts) (sortStrings detected) totalDur i seg = .ok (sp, m, c) ∧
      sp ∈ detected := by
  obtain ⟨m', sp', heq, hm0, hatt, hall⟩ := s2_result seg t ts
  rw [strat2]
  simp only [heq]
  by_cases hsp : sp' = ""
  · rw [if_pos hsp]
    obtain ⟨sp, c, hst, hspm⟩ := stage3_ok detected totalDur i seg hdet
    exact ⟨sp, _, c, hst, hspm⟩
  · rw [if_neg hsp]
    have hpos : (0 : ℚ) < 1 + m' := by linarith
    simp only [Option.getD_some]
    rw [pydiv, if_neg (ne_of_gt hpos)]
    obtain ⟨u, hu, hgap, hspu⟩ := hatt
    exact ⟨sp', _, _, rfl, hspu ▸ hmem u hu⟩

theorem computeAssignment_ok (t : DiarTurn) (ts : List DiarTurn) (detected : List String)
    (totalDur : ℚ) (i : Nat) (seg : Segment) (hdet : detected ≠ [])
    (hmem : ∀ u ∈ t :: ts, u.speaker ∈ detected) :
    ∃ sp m c,
      computeAssignment (t :: ts) (sortStrings detected) totalDur i seg = .ok (sp, m, c) ∧
      sp ∈ detected := by
  rw [computeAssignment_cons]
  rcases eq_or_lt_of_le (bestOverlap_nonneg seg (t :: ts)) with hbo | hbo
  · rw [strat1_of_zero hbo.symm]
    exact strat2_ok t ts detected totalDur i seg hdet hmem
  · obtain ⟨sp, ⟨u, hu, hspu⟩, hstrat⟩ := strat1_of_pos hbo
    rw [hstrat]
    exact ⟨sp, _, _, rfl, hspu ▸ hmem u hu⟩

theorem bumpCheck_of_mem {detected : List String} {sp : String} (h : sp ∈ detected) :
    bumpCheck detected sp = .ok () := by
  rw [bumpCheck, if_pos (memStr_eq_true_iff.mpr h)]

theorem assignLoop_ok (t : DiarTurn) (ts : List DiarTurn) (detected : List String)
    (totalDur : ℚ) (hdet : detected ≠ [])
    (hmem : ∀ u ∈ t :: ts, u.speaker ∈ detected) :
    ∀ (segs : List Segment) (i : Nat),
      ∃ out,
        assignLoop (t :: ts) (sortStrings detected) detected totalDur i segs = (out, none) ∧
        List.Forall₂ (fun s s' => ∃ sp m c, sp ∈ detected ∧
          s' = { s with speaker := some (some sp), method? := some m, conf? := some c })
          segs out := by
  intro segs
  induction segs with
  | nil => exact fun i => ⟨[], assignLoop_nil _ _ _ _ i, .nil⟩
  | cons s rest ih =>
    intro i
    obtain ⟨sp, m, c, hca, hspmem⟩ := computeAssignment_ok t ts detected totalDur i s hdet hmem
    obtain ⟨out, hl, hf⟩ := ih (i + 1)
    refine ⟨{ s with speaker := some (some sp), method? := some m, conf? := some c } :: out,
      ?_, .cons ⟨sp, m, c, hspmem, rfl⟩ hf⟩
    rw [assignLoop_cons, hca]
    simp only [bumpCheck_of_mem hspmem, hl]

/-! ## Frame preservation -/

theorem forall2_speaker_refl (l : List Segment) :
    List.Forall₂ (fun s s' => s' = { s with speaker := s'.speaker }) l l := by
  induction l with
  | nil => exact .nil
  | cons s rest ih => exact .cons rfl ih

theorem forall2_map_none (l : List Segment) :
    List.Forall₂ (fun s s' => s' = { s with speaker := s'.speaker }) l
      (l.map fun s => { s with speaker := some none }) := by
  induction l with
  | nil => exact .nil
  | cons s rest ih => exact .cons rfl ih

theorem forall2_cleanup {detected : List String} {segs out : List Segment}
    (h : ∀ s ∈ segs, s.method? = none ∧ s.conf? = none)
    (hf : List.Forall₂ (fun s s' => ∃ sp m c, sp ∈ detected ∧
      s' = { s with speaker := some (some sp), method? := some m, conf? := some c })
      segs out) :
    List.Forall₂ (fun s s' => s' = { s with speaker := s'.speaker }) segs
      (out.map cleanupDebug) := by
  induction hf with
  | nil => exact .nil
  | @cons s s' srest s'rest hrel hrest ih =>
    simp only [List.map_cons]
    refine .cons ?_ (ih fun u hu => h u (List.mem_cons_of_mem s hu))
    obtain ⟨sp, m, c, hmem, rfl⟩ := hrel
    obtain ⟨hm, hc⟩ := h s (List.mem_cons_self s srest)
    cases s with
    | mk a b txt spk mm cc =>
      simp only at hm hc
      subst hm
      subst hc
      rfl

theorem reconcile_frame_core (segs : List Segment) (raw : List RawItem)
    (h : ∀ s ∈ segs, s.method? = none ∧ s.conf? = none) :
    List.Forall₂ (fun s s' => s' = { s with speaker := s'.speaker }) segs
      (reconcile segs raw).segments := by
  unfold reconcile
  by_cases hdet : detectedSpeakers raw = []
  · rw [if_pos hdet]
    exact forall2_map_none segs
  · rw [if_neg hdet]
    cases hvt : validTurns raw with
    | nil =>
      cases segs with
      | nil =>
        rw [assignLoop_nil]
        simp only [phase4, List.length_nil, if_pos rfl]
        exact .nil
      | cons s rest =>
        rw [assignLoop_cons, computeAssignment_nil]
        simp only [phase4]
        exact forall2_speaker_refl _
    | cons t ts =>
      have hmem : ∀ u ∈ t :: ts, u.speaker ∈ detectedSpeakers raw := by
        intro u hu
        exact validTurns_speaker_mem (hvt ▸ hu)
      obtain ⟨out, hl, hf⟩ :=
        assignLoop_ok t ts (detectedSpeakers raw) (totalDurOf segs) hdet hmem segs 0
      rw [hl]
      by_cases hlen : segs.length = 0
      · obtain rfl : segs = [] := List.length_eq_zero.mp hlen
        cases hf
        simp only [phase4, List.length_nil, if_pos rfl]
        exact .nil
      · simp only [phase4, if_neg hlen]
        exact forall2_cleanup h hf

/-! ## Claim theorems -/

/-- C2: for every input, reconciliation preserves the segment list's length and
order and leaves each segment's `start`, `end` and `text` unchanged; after the
debug-field cleanup the only field added or modified on any segment is
`speaker` (stated for inputs that, as produced by the ASR collaborator, do not
already carry the internal debug keys).  `s' = { s with speaker := s'.speaker }`
says the output segment differs from the input segment at most in its
`speaker` field. -/
theorem claim_C2_frame_preservation (segs : List Segment) (raw : List RawItem)
    (h : ∀ s ∈ segs, s.method? = none ∧ s.conf? = none) :
    (reconcile segs raw).segments.length = segs.length ∧
    List.Forall₂ (fun s s' => s' = { s with speaker := s'.speaker }) segs
      (reconcile segs raw).segments := by
  have main := reconcile_frame_core segs raw h
  exact ⟨main.length_eq.symm, main⟩

def wSegsC2 : List Segment := [{ start := some 0, stop := some 4, text := "w" }]

def wRawC2 : List RawItem := [.item (some 0) (some 3) "S"]

theorem claim_C2_frame_preservation_witness :
    (∀ s ∈ wSegsC2, s.method? = none ∧ s.conf? = none) ∧
    ((reconcile wSegsC2 wRawC2).segments.length = wSegsC2.length ∧
     List.Forall₂ (fun s s' => s' = { s with speaker := s'.speaker }) wSegsC2
       (reconcile wSegsC2 wRawC2).segments) :=
  ⟨by simp [wSegsC2], claim_C2_frame_preservation wSegsC2 wRawC2 (by simp [wSegsC2])⟩

/-- C4: when at least one valid diarization turn exists and the maximum
temporal overlap `max(0, min(segmentEnd, turnEnd) - max(segmentStart,
turnStart))` over the turns is strictly positive, the speaker of a turn
attaining that maximum is assigned as `best_speaker`. -/
theorem claim_C4_max_overlap_assignment (seg : Segment) (turns : List DiarTurn)
    (h : 0 < bestOverlap seg turns) :
    ∃ t ∈ turns, overlapDur seg t = bestOverlap seg turns ∧
      (∀ u ∈ turns, overlapDur seg u ≤ overlapDur seg t) ∧
      bestSpeaker seg turns = some t.speaker := by
  obtain ⟨t, hfind, hsnd⟩ := s1go_find seg turns 0 none h
  have ht : t ∈ turns := List.mem_of_find?_eq_some hfind
  have hp := List.find?_some hfind
  simp only [decide_eq_true_eq] at hp
  have hov : overlapDur seg t = bestOverlap seg turns := hp
  refine ⟨t, ht, hov, ?_, hsnd⟩
  intro u hu
  rw [hov, bestOverlap, s1go_fst]
  exact mem_le_foldlMax seg hu 0

def exSeg4 : Segment := { start := some 0, stop := some 10, text := "s" }

def exTurns4 : List DiarTurn := [⟨0, 4, "A", 4⟩, ⟨3, 10, "B", 7⟩]

theorem claim_C4_max_overlap_assignment_witness :
    0 < bestOverlap exSeg4 exTurns4 ∧ bestSpeaker exSeg4 exTurns4 = some "B" ∧
    (∃ t ∈ exTurns4, overlapDur exSeg4 t = bestOverlap exSeg4 exTurns4 ∧
      (∀ u ∈ exTurns4, overlapDur exSeg4 u ≤ overlapDur exSeg4 t) ∧
      bestSpeaker exSeg4 exTurns4 = some t.speaker) :=
  ⟨by norm_num [bestOverlap, s1go, overlapDur, segStart, segEnd, exSeg4, exTurns4,
     min_def, max_def],
   by norm_num [bestSpeaker, s1go, overlapDur, segStart, segEnd, exSeg4, exTurns4,
     min_def, max_def],
   claim_C4_max_overlap_assignment exSeg4 exTurns4
     (by norm_num [bestOverlap, s1go, overlapDur, segStart, segEnd, exSeg4, exTurns4,
       min_def, max_def])⟩

/-- C5: ties in maximum overlap are broken by turn iteration order: the
assigned `best_speaker` is the speaker of the *first* turn in iteration order
that attains the maximum overlap (`List.find?` returns the first match), so
assignment is deterministic. -/
theorem claim_C5_tie_break_first_turn (seg : Segment) (turns : List DiarTurn)
    (h : 0 < bestOverlap seg turns) :
    ∃ t, turns.find? (fun u => decide (overlapDur seg u = bestOverlap seg turns)) = some t ∧
      bestSpeaker seg turns = some t.speaker :=
  s1go_find seg turns 0 none h

def exTurns5 : List DiarTurn := [⟨0, 5, "A", 5⟩, ⟨5, 10, "B", 5⟩]

theorem claim_C5_tie_break_first_turn_witness :
    0 < bestOverlap exSeg4 exTurns5 ∧ bestSpeaker exSeg4 exTurns5 = some "A" ∧
    (∃ t, exTurns5.find?
        (fun u => decide (overlapDur exSeg4 u = bestOverlap exSeg4 exTurns5)) = some t ∧
      bestSpeaker exSeg4 exTurns5 = some t.speaker) :=
  ⟨by norm_num [bestOverlap, s1go, overlapDur, segStart, segEnd, exSeg4, exTurns5,
     min_def, max_def],
   by norm_num [bestSpeaker, s1go, overlapDur, segStart, segEnd, exSeg4, exTurns5,
     min_def, max_def],
   claim_C5_tie_break_first_turn exSeg4 exTurns5
     (by norm_num [bestOverlap, s1go, overlapDur, segStart, segEnd, exSeg4, exTurns5,
       min_def, max_def])⟩

/-- C10: a strictly positive best overlap implies a strictly positive segment
duration, so the confidence computation `best_overlap / segment_duration` at
line 351 never divides by zero: the modelled Python division returns the exact
quotient rather than raising `ZeroDivisionError`, for every segment including
zero-length and end-before-start ones. -/
theorem claim_C10_confidence_division_safe (seg : Segment) (turns : List DiarTurn)
    (h : 0 < bestOverlap seg turns) :
    0 < segDur seg ∧
    pydiv (bestOverlap seg turns) (segDur seg) =
      .ok (bestOverlap seg turns / segDur seg) := by
  have hd := segDur_pos_of_bestOverlap_pos h
  exact ⟨hd, by rw [pydiv, if_neg (ne_of_gt hd)]⟩

def wSeg10 : Segment := { start := some 0, stop := some 2, text := "u" }

def wTurns10 : List DiarTurn := [⟨0, 1, "S", 1⟩]

def segsC1 : List Segment := [{ start := some 0, stop := some 5, text := "hi" }]

def rawC1 : List RawItem := [.item (some 2) (some 1) "S"]

def rawC1b : List RawItem := [.item (some 0) (some 5) "S"]

/-- C1: the reconciliation step does NOT always complete without an exception.
At the two inputs singled out by the claim it raises and aborts instead of
degrading to a fallback assignment: with a detected speaker (from a turn whose
timing fails validation) but an empty valid-turn list and one segment, the
read of `best_overlap` at line 348 raises `NameError` (the guard at line 330
never initialised it); with a valid speaker and an empty segment list, the
phase-4 report at line 423 divides by `len(result["segments"]) = 0`.  Both
exceptions are caught by the blanket handler at line 438, outside the
assignment logic. -/
theorem claim_C1_reconciler_crashes_on_degenerate_inputs :
    detectedSpeakers rawC1 = ["S"] ∧ validTurns rawC1 = [] ∧
    (reconcile segsC1 rawC1).exn = some (.nameError "best_overlap") ∧
    (reconcile segsC1 rawC1).segments = segsC1 ∧
    detectedSpeakers rawC1b = ["S"] ∧ validTurns rawC1b = [⟨0, 5, "S", 5⟩] ∧
    (reconcile ([] : List Segment) rawC1b).exn = some .zeroDivisionError := by
  have hdet : detectedSpeakers rawC1 = ["S"] := by
    simp [detectedSpeakers, dedupStr, memStr, rawC1, List.filterMap]
  have hvt : validTurns rawC1 = [] := by
    norm_num [validTurns, rawC1, List.filterMap]
  have hdetb : detectedSpeakers rawC1b = ["S"] := by
    simp [detectedSpeakers, dedupStr, memStr, rawC1b, List.filterMap]
  have hvtb : validTurns rawC1b = [⟨0, 5, "S", 5⟩] := by
    norm_num [validTurns, rawC1b, List.filterMap]
  have h1 : reconcile segsC1 rawC1 =
      { segments := segsC1,
        meta := { attempted := true, success := false, speaker_count := 0,
                  error := some (pyErrMsg (.nameError "best_overlap")) },
        exn := some (.nameError "best_overlap") } := by
    unfold reconcile
    rw [hdet, hvt, if_neg (by simp)]
    rw [show segsC1 = ({ start := some 0, stop := some 5, text := "hi" } : Segment) :: []
      from rfl]
    rw [assignLoop_cons, computeAssignment_nil]
    simp [phase4]
  have h2 : reconcile ([] : List Segment) rawC1b =
      { segments := [],
        meta := { attempted := true, success := false, speaker_count := 0,
                  error := some (pyErrMsg .zeroDivisionError) },
        exn := some .zeroDivisionError } := by
    unfold reconcile
    rw [hdetb, if_neg (by simp), assignLoop_nil]
    simp [phase4]
  exact ⟨hdet, hvt, by rw [h1], by rw [h1], hdetb, hvtb, by rw [h2]⟩

def segsC3 : List Segment := [{ start := some 0, stop := some 2, text := "hello" }]

/-- C3: with an empty valid-speaker set (here: diarization produced zero
turns), every output segment's `speaker` is the absence marker (Python
`None`), the outcome records `success = false` with `speaker_count = 0` — but
the error finally recorded is NOT the explanatory
`"No speakers detected in diarization output"` written at lines 307-308: the
misplaced phase-4 report raises `NameError` at line 419 and the handler at
line 444 overwrites the explanatory reason with the interpreter message. -/
theorem claim_C3_no_speaker_outcome :
    (reconcile segsC3 []).segments
      = [{ start := some 0, stop := some 2, text := "hello", speaker := some none }] ∧
    (reconcile segsC3 []).meta.success = false ∧
    (reconcile segsC3 []).meta.speaker_count = 0 ∧
    (reconcile segsC3 []).meta.error
      = some (pyErrMsg (.nameError "successful_assignments")) ∧
    (reconcile segsC3 []).meta.error ≠ some "No speakers detected in diarization output" := by
  have h : reconcile segsC3 [] =
      { segments := [{ start := some 0, stop := some 2, text := "hello",
                       speaker := some none }],
        meta := { attempted := true, success := false, speaker_count := 0,
                  error := some (pyErrMsg (.nameError "successful_assignments")) },
        exn := some (.nameError "successful_assignments") } := by
    unfold reconcile
    rw [if_pos (show detectedSpeakers [] = [] from rfl)]
    simp [noSpeakerOut, segsC3]
  refine ⟨by rw [h], by rw [h], by rw [h], by rw [h], ?_⟩
  rw [h]
  simp only [pyErrMsg]
  decide

def segsC7 : List Segment := [{ start := some 10, stop := some 20, text := "a" },
                              { start := some 60, stop := some 100, text := "b" }]

def rawC7 : List RawItem := [.item (some 3) (some 1) "A", .item (some 9) (some 2) "B"]

/-- C7: the time-based fallback never executes in the scenario the claim
describes.  With two detected speakers `A`, `B` (whose turns all failed timing
validation, so zero valid turns survive) and segments starting at 10 and 60
with total duration 100, the claim prescribes the midpoint assignment
`A`/`B`; the code instead raises `NameError` on the uninitialised
`best_overlap` at line 348 during the first loop iteration and leaves every
segment without any speaker assignment. -/
theorem claim_C7_time_fallback_unreachable :
    detectedSpeakers rawC7 = ["A", "B"] ∧ validTurns rawC7 = [] ∧
    (reconcile segsC7 rawC7).exn = some (.nameError "best_overlap") ∧
    (reconcile segsC7 rawC7).segments = segsC7 ∧
    (reconcile segsC7 rawC7).meta.success = false := by
  have hdet : detectedSpeakers rawC7 = ["A", "B"] := by
    simp [detectedSpeakers, dedupStr, memStr, rawC7, List.filterMap]
  have hvt : validTurns rawC7 = [] := by
    norm_num [validTurns, rawC7, List.filterMap]
  have h : reconcile segsC7 rawC7 =
      { segments := segsC7,
        meta := { attempted := true, success := false, speaker_count := 0,
                  error := some (pyErrMsg (.nameError "best_overlap")) },
        exn := some (.nameError "best_overlap") } := by
    unfold reconcile
    rw [hdet, hvt, if_neg (by simp)]
    rw [show segsC7 = ({ start := some 10, stop := some 20, text := "a" } : Segment) ::
      [{ start := some 60, stop := some 100, text := "b" }] from rfl]
    rw [assignLoop_cons, computeAssignment_nil]
    simp [phase4]
  exact ⟨hdet, hvt, by rw [h], by rw [h], by rw [h]⟩

def rawC8 : List RawItem := [.item (some 0) (some 6) "S0"]

/-- C8: the success outcome is NOT recorded for every segment list once a
valid speaker exists: with one valid speaker and turn but an empty segment
list, the phase-4 report at line 423 raises `ZeroDivisionError`
(`count / len(result["segments"])` with zero segments) before lines 434-436
can set `success = True` and `speaker_count`, so the outcome keeps
`success = false` and `speaker_count = 0`. -/
theorem claim_C8_success_outcome_lost_on_empty_segments :
    detectedSpeakers rawC8 = ["S0"] ∧ validTurns rawC8 = [⟨0, 6, "S0", 6⟩] ∧
    (reconcile ([] : List Segment) rawC8).meta.success = false ∧
    (reconcile ([] : List Segment) rawC8).meta.speaker_count = 0 ∧
    (reconcile ([] : List Segment) rawC8).exn = some .zeroDivisionError := by
  have hdet : detectedSpeakers rawC8 = ["S0"] := by
    simp [detectedSpeakers, dedupStr, memStr, rawC8, List.filterMap]
  have hvt : validTurns rawC8 = [⟨0, 6, "S0", 6⟩] := by
    norm_num [validTurns, rawC8, List.filterMap]
  have h : reconcile ([] : List Segment) rawC8 =
      { segments := [],
        meta := { attempted := true, success := false, speaker_count := 0,
                  error := some (pyErrMsg .zeroDivisionError) },
        exn := some .zeroDivisionError } := by
    unfold reconcile
    rw [hdet, if_neg (by simp), assignLoop_nil]
    simp [phase4]
  exact ⟨hdet, hvt, by rw [h], by rw [h], by rw [h]⟩

/-- C6 (amended): for every segment that overlaps no valid turn while at least
one valid turn exists, the segment is assigned the speaker of a turn attaining
the minimum temporal gap with method `"closest"` — provided the winning turn's
speaker label is truthy (a non-empty string); an empty-string label fails the
`if closest_speaker:` test at line 378 and falls through to the time-based
fallback instead. -/
theorem claim_C6_gap_fallback_amended (t : DiarTurn) (ts : List DiarTurn)
    (spl : List String) (totalDur : ℚ) (i : Nat) (seg : Segment)
    (hov : ∀ u ∈ t :: ts, overlapDur seg u = 0)
    (hne : ∀ sp, (s2go seg (t :: ts) none none).2 = some sp → sp ≠ "") :
    ∃ u ∈ t :: ts, (∀ v ∈ t :: ts, gapDist seg u ≤ gapDist seg v) ∧
      ∃ c, computeAssignment (t :: ts) spl totalDur i seg = .ok (u.speaker, "closest", c) := by
  have hbo : bestOverlap seg (t :: ts) = 0 := by
    refine le_antisymm ?_ (bestOverlap_nonneg _ _)
    rw [bestOverlap, s1go_fst]
    exact foldlMax_le seg (t :: ts) 0 0 le_rfl (fun u hu => (hov u hu).le)
  obtain ⟨m', sp', heq, hm0, hatt, hall⟩ := s2_result seg t ts
  obtain ⟨u, hu, hgap, hspu⟩ := hatt
  have hsp' : sp' ≠ "" := hne sp' (by rw [heq])
  refine ⟨u, hu, ?_, ⟨1 / (1 + m'), ?_⟩⟩
  · intro v hv
    rw [hgap]
    exact hall v hv
  · rw [computeAssignment_cons, strat1_of_zero hbo]
    show strat2 (t :: ts) spl totalDur i seg = _
    rw [strat2.eq_def]
    simp only [heq, Option.getD_some]
    rw [if_neg hsp', pydiv, if_neg (ne_of_gt (show (0 : ℚ) < 1 + m' by linarith))]
    rw [hspu]

def exSeg6 : Segment := { start := some 20, stop := some 25, text := "t" }

def segs6 : List Segment := [exSeg6]

def raw6 : List RawItem := [.item (some 0) (some 10) "X", .item (some 15) (some 19) ""]

def turns6 : List DiarTurn := [⟨0, 10, "X", 10⟩, ⟨15, 19, "", 4⟩]

def out6 : Segment :=
  { start := some 20, stop := some 25, text := "t", speaker := some (some "X"),
    method? := some "time_fallback", conf? := some (1/2) }

/-- C6 (counterexample): with segment `[20,25)` and valid turns
`X:[0,10)`, `"":[15,19)`, the unique minimum-gap turn is the one labelled with
the empty string (gap 1 against gap 10), yet the reconciler assigns `"X"`: the
empty label fails the truthiness test at line 378 and the segment falls
through to the two-speaker time fallback, contradicting the claim that the
minimum-gap turn's speaker is always assigned. -/
theorem claim_C6_counterexample :
    (reconcile segs6 raw6).segments.map (fun s => s.speaker) = [some (some "X")] ∧
    validTurns raw6 = turns6 ∧
    gapDist exSeg6 ⟨15, 19, "", 4⟩ < gapDist exSeg6 ⟨0, 10, "X", 10⟩ ∧
    (∀ u ∈ turns6, gapDist exSeg6 (⟨15, 19, "", 4⟩ : DiarTurn) ≤ gapDist exSeg6 u) ∧
    ("X" : String) ≠ "" := by
  have hdet : detectedSpeakers raw6 = ["X", ""] := by
    simp [detectedSpeakers, dedupStr, memStr, raw6, List.filterMap]
  have hvt : validTurns raw6 = turns6 := by
    norm_num [validTurns, raw6, turns6, List.filterMap]
  have hsort : sortStrings ["X", ""] = ["", "X"] := by decide
  have htd : totalDurOf segs6 = 25 := by
    simp [totalDurOf, segs6, exSeg6, List.getLast?]
  have hbo : bestOverlap exSeg6 turns6 = 0 := by
    norm_num [bestOverlap, s1go, overlapDur, segStart, segEnd, exSeg6, turns6,
      min_def, max_def]
  have hs2 : s2go exSeg6 turns6 none none = (some 1, some "") := by
    norm_num [s2go, gapDist, segStart, segEnd, exSeg6, turns6]
  have hstage3 : stage3 ["", "X"] 25 0 exSeg6 = .ok ("X", "time_fallback", 1/2) := by
    norm_num [stage3, segStart, exSeg6]
  have hca : computeAssignment turns6 ["", "X"] 25 0 exSeg6
      = .ok ("X", "time_fallback", 1/2) := by
    rw [show turns6 = ⟨0, 10, "X", 10⟩ :: [⟨15, 19, "", 4⟩] from rfl, computeAssignment_cons]
    rw [show ((⟨0, 10, "X", 10⟩ : DiarTurn) :: [⟨15, 19, "", 4⟩]) = turns6 from rfl]
    rw [strat1_of_zero hbo]
    show strat2 turns6 ["", "X"] 25 0 exSeg6 = _
    rw [strat2.eq_def]
    simp only [hs2, Option.getD_some]
    simp [hstage3]
  have hbump : bumpCheck ["X", ""] "X" = .ok () := by simp [bumpCheck, memStr]
  have hloop : assignLoop turns6 ["", "X"] ["X", ""] 25 0 segs6 = ([out6], none) := by
    rw [show segs6 = [exSeg6] from rfl, assignLoop_cons, hca]
    simp only [hbump, assignLoop_nil]
    simp [out6, exSeg6]
  refine ⟨?_, hvt, ?_, ?_, by decide⟩
  · unfold reconcile
    rw [hdet, hvt, hsort, htd, if_neg (by simp), hloop, show segs6.length = 1 from rfl]
    simp [phase4, out6, cleanupDebug]
  · norm_num [gapDist, segStart, segEnd, exSeg6]
  · intro u hu
    rcases List.mem_cons.mp hu with rfl | hu'
    · norm_num [gapDist, segStart, segEnd, exSeg6]
    · rcases List.mem_singleton.mp hu' with rfl
      exact le_rfl

theorem claim_C6_gap_fallback_amended_witness :
    (∀ u ∈ (⟨0, 10, "A", 10⟩ : DiarTurn) :: [⟨15, 19, "B", 4⟩], overlapDur exSeg6 u = 0) ∧
    computeAssignment [⟨0, 10, "A", 10⟩, ⟨15, 19, "B", 4⟩] ["A", "B"] 25 0 exSeg6
      = .ok ("B", "closest", 1/2) ∧
    (∃ u ∈ (⟨0, 10, "A", 10⟩ : DiarTurn) :: [⟨15, 19, "B", 4⟩],
      (∀ v ∈ (⟨0, 10, "A", 10⟩ : DiarTurn) :: [⟨15, 19, "B", 4⟩],
        gapDist exSeg6 u ≤ gapDist exSeg6 v) ∧
      ∃ c, computeAssignment ((⟨0, 10, "A", 10⟩ : DiarTurn) :: [⟨15, 19, "B", 4⟩])
        ["A", "B"] 25 0 exSeg6 = .ok (u.speaker, "closest", c)) := by
  have hov : ∀ u ∈ (⟨0, 10, "A", 10⟩ : DiarTurn) :: [⟨15, 19, "B", 4⟩],
      overlapDur exSeg6 u = 0 := by
    intro u hu
    rcases List.mem_cons.mp hu with rfl | hu'
    · norm_num [overlapDur, segStart, segEnd, exSeg6, min_def, max_def]
    · rcases List.mem_singleton.mp hu' with rfl
      norm_num [overlapDur, segStart, segEnd, exSeg6, min_def, max_def]
  have hs2 : s2go exSeg6 ((⟨0, 10, "A", 10⟩ : DiarTurn) :: [⟨15, 19, "B", 4⟩]) none none
      = (some 1, some "B") := by
    norm_num [s2go, gapDist, segStart, segEnd, exSeg6]
  have hne : ∀ sp,
      (s2go exSeg6 ((⟨0, 10, "A", 10⟩ : DiarTurn) :: [⟨15, 19, "B", 4⟩]) none none).2
        = some sp → sp ≠ "" := by
    intro sp h
    rw [hs2] at h
    simp only [Option.some.injEq] at h
    rw [← h]
    decide
  have hbo : bestOverlap exSeg6 ((⟨0, 10, "A", 10⟩ : DiarTurn) :: [⟨15, 19, "B", 4⟩]) = 0 := by
    norm_num [bestOverlap, s1go, overlapDur, segStart, segEnd, exSeg6, min_def, max_def]
  refine ⟨hov, ?_, claim_C6_gap_fallback_amended _ _ _ _ _ _ hov hne⟩
  rw [show ([⟨0, 10, "A", 10⟩, ⟨15, 19, "B", 4⟩] : List DiarTurn)
      = (⟨0, 10, "A", 10⟩ : DiarTurn) :: [⟨15, 19, "B", 4⟩] from rfl]
  rw [computeAssignment_cons, strat1_of_zero hbo]
  show strat2 _ _ _ _ _ = _
  rw [strat2.eq_def]
  simp only [hs2, Option.getD_some]
  rw [if_neg (by decide : ¬("B" : String) = "")]
  rw [pydiv, if_neg (by norm_num : (1 : ℚ) + 1 ≠ 0)]
  norm_num

theorem claim_C10_confidence_division_safe_witness :
    0 < bestOverlap wSeg10 wTurns10 ∧
    (0 < segDur wSeg10 ∧
     pydiv (bestOverlap wSeg10 wTurns10) (segDur wSeg10) =
       .ok (bestOverlap wSeg10 wTurns10 / segDur wSeg10)) :=
  ⟨by norm_num [bestOverlap, s1go, overlapDur, segStart, segEnd, wSeg10, wTurns10,
     min_def, max_def],
   claim_C10_confidence_division_safe wSeg10 wTurns10
     (by norm_num [bestOverlap, s1go, overlapDur, segStart, segEnd, wSeg10, wTurns10,
       min_def, max_def])⟩

def envLeak : TEnv :=
  { suffixLower := ".m4a", enableDiar := true, hfToken := true, convertSucceeds := true,
    loadModelRaises := true, loadAudioRaises := false, transcribeRaises := false,
    diarizeRaises := false, rawTurns := [], segments := [] }

/-- C9 (counterexample): a temporary conversion file is NOT removed on every
exit path.  With a `.m4a` input whose conversion succeeded, an exception from
`whisperx.load_model` (line 125, outside any try/finally) propagates out of
`transcribe_audio` before the cleanup call at lines 452-454 is reached, and
the temporary file is leaked. -/
theorem claim_C9_counterexample :
    tempCreated envLeak = true ∧
    (transcribeAudioRun envLeak).2 = false ∧
    runOk (transcribeAudioRun envLeak) = false :=
  ⟨rfl, rfl, rfl⟩

/-- C9 (amended): whenever `transcribe_audio` returns normally, the temporary
conversion file (when one was produced) is removed before the return: the
cleanup at lines 452-454 lies on the straight-line path to `return`, and the
diarization block catches its own exceptions; but when model loading, audio
loading or transcription raises, the exception propagates without cleanup. -/
theorem claim_C9_cleanup_on_normal_return (env : TEnv)
    (h : runOk (transcribeAudioRun env) = true) :
    (transcribeAudioRun env).2 = tempCreated env := by
  unfold transcribeAudioRun at h ⊢
  by_cases h1 : env.loadModelRaises
  · rw [if_pos h1] at h
    simp [runOk] at h
  · rw [if_neg h1] at h ⊢
    by_cases h2 : env.loadAudioRaises
    · rw [if_pos h2] at h
      simp [runOk] at h
    · rw [if_neg h2] at h ⊢
      by_cases h3 : env.transcribeRaises
      · rw [if_pos h3] at h
        simp [runOk] at h
      · rw [if_neg h3] at h ⊢
        by_cases h4 : env.enableDiar && env.hfToken
        · rw [if_pos h4]
          by_cases h5 : env.diarizeRaises
          · rw [if_pos h5]
          · rw [if_neg h5]
        · rw [if_neg h4]
          by_cases h6 : env.enableDiar
          · rw [if_pos h6]
          · rw [if_neg h6]

def envOK : TEnv :=
  { suffixLower := ".m4a", enableDiar := true, hfToken := false, convertSucceeds := true,
    loadModelRaises := false, loadAudioRaises := false, transcribeRaises := false,
    diarizeRaises := false, rawTurns := [], segments := [] }

theorem claim_C9_cleanup_on_normal_return_witness :
    runOk (transcribeAudioRun envOK) = true ∧
    (transcribeAudioRun envOK).2 = tempCreated envOK ∧
    tempCreated envOK = true :=
  ⟨rfl, claim_C9_cleanup_on_normal_return envOK rfl, rfl⟩

end Transcribe
